import Mathlib

/-!
Verification of the terrier query-expression core.

This file shallowly embeds the expression representation
(`src/include/parser/expression/abstract_expression.h`,
`src/include/parser/expression/operator_expression.h`), the expression
utilities (`src/include/parser/expression_util.h`) and the property
enforcer (`src/optimizer/property_enforcer.cpp`) into Lean, and proves or
refutes the specified properties of those functions.

C++ fatal assertion failures (TERRIER_ASSERT) and undefined behaviour are
modelled by `Option`: a `none` result means the operation aborts.
Raw/unique pointers become plain values; a null pointer slot inside a
child vector becomes a `none` entry of a `List (Option _)`.
-/

/-- Expression kind tag. Modelled from the spec and the uses in the source:
`parser/expression_defs.h` is not part of the provided sources, so the
constructor set is the set of kinds the provided sources mention. -/
inductive ExpressionType where
  | COLUMN_VALUE
  | VALUE_TUPLE
  | VALUE_CONSTANT
  | VALUE_PARAMETER
  | AGGREGATE_COUNT
  | AGGREGATE_SUM
  | AGGREGATE_MIN
  | AGGREGATE_MAX
  | AGGREGATE_AVG
  | OPERATOR_PLUS
  | OPERATOR_MINUS
  | OPERATOR_MULTIPLY
  | OPERATOR_DIVIDE
  | OPERATOR_CONCAT
  | OPERATOR_MOD
  | OPERATOR_CAST
  | OPERATOR_NOT
  | OPERATOR_IS_NULL
  | OPERATOR_IS_NOT_NULL
  | OPERATOR_EXISTS
  | OPERATOR_UNARY_MINUS
  | OPERATOR_CASE_EXPR
  | FUNCTION
  | COMPARE_EQUAL
  | COMPARE_NOT_EQUAL
  | COMPARE_LESS_THAN
  | COMPARE_GREATER_THAN
  | COMPARE_LESS_THAN_OR_EQUAL_TO
  | COMPARE_GREATER_THAN_OR_EQUAL_TO
  | CONJUNCTION_AND
  | CONJUNCTION_OR
  deriving DecidableEq, Repr

/-- Value type tag. Modelled from the spec: `type/type_id.h` is not part of
the provided sources; the spec fixes a total order over value types with a
ceiling at the decimal type, and the promotion example INTEGER + DECIMAL
gives DECIMAL, so numeric types sit below DECIMAL in declaration order. -/
inductive TypeId where
  | INVALID
  | BOOLEAN
  | TINYINT
  | SMALLINT
  | INTEGER
  | BIGINT
  | DECIMAL
  | TIMESTAMP
  | DATE
  | VARCHAR
  | VARBINARY
  deriving DecidableEq, Repr

/-- Underlying integral value of the `TypeId` enum; the C++ comparison
`t1 < t2` on the enum class compares these. -/
def TypeId.toNat : TypeId → Nat
  | .INVALID => 0
  | .BOOLEAN => 1
  | .TINYINT => 2
  | .SMALLINT => 3
  | .INTEGER => 4
  | .BIGINT => 5
  | .DECIMAL => 6
  | .TIMESTAMP => 7
  | .DATE => 8
  | .VARCHAR => 9
  | .VARBINARY => 10

mutual
/-- The expression node: the fields of `AbstractExpression`
(`expression_type_`, `expression_name_`, `alias_`, `return_value_type_`,
`depth_`, `has_subquery_`, `children_`) plus the kind-specific payload a
concrete subclass adds (table/column name for `ColumnValueExpression`,
tuple and value index for `DerivedValueExpression`, a constant for
`ConstantValueExpression`, when clauses and a default for
`CaseExpression`). Children are owned subtrees. -/
inductive Expr where
  | node (etype : ExpressionType) (ename aliasStr : String) (retTy : TypeId)
         (depth : Int) (hasSub : Bool) (pay : Payload) (children : List Expr) : Expr
/-- Kind-specific payload of the concrete expression subclasses; the
subclass headers other than `operator_expression.h` are not in the provided
sources, so the payloads are modelled from the spec and the uses in
`expression_util.h`. -/
inductive Payload where
  | pnone : Payload
  | pcolumn (tableName columnName : String) : Payload
  | pderived (tupleIdx valueIdx : Int) : Payload
  | pconst (v : Int) : Payload
  | pcase (clauses : List (Expr × Expr)) (deflt : Option Expr) : Payload
end

/-- `GetExpressionType()` -/
def Expr.etype : Expr → ExpressionType
  | .node t _ _ _ _ _ _ _ => t

/-- `GetExpressionName()` -/
def Expr.ename : Expr → String
  | .node _ n _ _ _ _ _ _ => n

/-- `GetAlias()` -/
def Expr.aliasStr : Expr → String
  | .node _ _ a _ _ _ _ _ => a

/-- `GetReturnValueType()` -/
def Expr.retTy : Expr → TypeId
  | .node _ _ _ r _ _ _ _ => r

/-- `GetDepth()` -/
def Expr.depth : Expr → Int
  | .node _ _ _ _ d _ _ _ => d

/-- `HasSubquery()` -/
def Expr.hasSub : Expr → Bool
  | .node _ _ _ _ _ s _ _ => s

/-- The kind-specific payload of the node. -/
def Expr.pay : Expr → Payload
  | .node _ _ _ _ _ _ p _ => p

/-- `GetChildren()` / `GetChildrenSize()` source. -/
def Expr.children : Expr → List Expr
  | .node _ _ _ _ _ _ _ c => c

/-- `SetReturnValueType(t)`: replace the return-type annotation, keeping
every other field. -/
def Expr.setRetTy : Expr → TypeId → Expr
  | .node t n a _ d s p c, r => .node t n a r d s p c

/-- `Copy()`. Modelled from the spec: every subclass's `Copy` produces a
deep, independent copy that is structurally and annotation-equal to the
original; on pure values a deep copy is the value itself. -/
def Expr.copy (e : Expr) : Expr := e

/-- `CopyWithChildren(children)`. Modelled from the spec: produces a node
of the same kind, return type and annotations as the receiver with exactly
the given list as its children. -/
def Expr.copyWithChildren : Expr → List Expr → Expr
  | .node t n a r d s p _, cs => .node t n a r d s p cs

mutual
/-- `AbstractExpression::operator==` (abstract_expression.h, lines
130-140): compares the expression type, alias, expression name, depth,
subquery flag, children count, the children pairwise, and the return
type.  The kind-specific payload is not part of the base-class
comparison. -/
def Expr.beq : Expr → Expr → Bool
  | .node t1 n1 a1 r1 d1 s1 _ c1, .node t2 n2 a2 r2 d2 s2 _ c2 =>
    t1 == t2 && a1 == a2 && n1 == n2 && d1 == d2 && s1 == s2 &&
      c1.length == c2.length && Expr.beqList c1 c2 && r1 == r2
/-- Pairwise equality of two children vectors of the same length, as the
loop in `operator==` computes it. -/
def Expr.beqList : List Expr → List Expr → Bool
  | [], [] => true
  | x :: xs, y :: ys => Expr.beq x y && Expr.beqList xs ys
  | _, _ => false
end

/-- `common::HashUtil::CombineHashes`. Modelled from the spec:
`common/hash_util.h` is not in the provided sources; any deterministic
mixing function realises the contract the claims use. -/
def combineHashes (l r : Nat) : Nat := (l * 31 + r + 11) % 65521

/-- `common::HashUtil::Hash` on a scalar, modelled as a deterministic
mixing of the value (the claims only need determinism). -/
def hashScalar (x : Nat) : Nat := (x * 37 + 119) % 65521

/-- Hash of a string field. -/
def hashString (s : String) : Nat :=
  s.toList.foldl (fun h c => combineHashes h (hashScalar c.toNat)) 5381

/-- Hash of an `int` field. -/
def hashInt (d : Int) : Nat :=
  hashScalar (2 * d.natAbs + (if d < 0 then 1 else 0))

/-- Position of an `ExpressionType` in the enum, used as its scalar value
for hashing. -/
def ExpressionType.toNat : ExpressionType → Nat
  | .COLUMN_VALUE => 0
  | .VALUE_TUPLE => 1
  | .VALUE_CONSTANT => 2
  | .VALUE_PARAMETER => 3
  | .AGGREGATE_COUNT => 4
  | .AGGREGATE_SUM => 5
  | .AGGREGATE_MIN => 6
  | .AGGREGATE_MAX => 7
  | .AGGREGATE_AVG => 8
  | .OPERATOR_PLUS => 9
  | .OPERATOR_MINUS => 10
  | .OPERATOR_MULTIPLY => 11
  | .OPERATOR_DIVIDE => 12
  | .OPERATOR_CONCAT => 13
  | .OPERATOR_MOD => 14
  | .OPERATOR_CAST => 15
  | .OPERATOR_NOT => 16
  | .OPERATOR_IS_NULL => 17
  | .OPERATOR_IS_NOT_NULL => 18
  | .OPERATOR_EXISTS => 19
  | .OPERATOR_UNARY_MINUS => 20
  | .OPERATOR_CASE_EXPR => 21
  | .FUNCTION => 22
  | .COMPARE_EQUAL => 23
  | .COMPARE_NOT_EQUAL => 24
  | .COMPARE_LESS_THAN => 25
  | .COMPARE_GREATER_THAN => 26
  | .COMPARE_LESS_THAN_OR_EQUAL_TO => 27
  | .COMPARE_GREATER_THAN_OR_EQUAL_TO => 28
  | .CONJUNCTION_AND => 29
  | .CONJUNCTION_OR => 30

mutual
/-- `AbstractExpression::Hash` (abstract_expression.h, lines 111-123):
starts from the hash of the expression type, folds in every child's hash,
then the return type, expression name, alias, depth and subquery flag.
The kind-specific payload is not part of the base-class hash. -/
def Expr.hashE : Expr → Nat
  | .node t n a r d s _ c =>
    let h := Expr.hashChildren c (hashScalar t.toNat)
    combineHashes
      (combineHashes
        (combineHashes
          (combineHashes (combineHashes h (hashScalar r.toNat)) (hashString n))
          (hashString a))
        (hashInt d))
      (hashScalar (cond s 1 0))
/-- The fold over the children in `Hash`. -/
def Expr.hashChildren : List Expr → Nat → Nat
  | [], h => h
  | x :: xs, h => Expr.hashChildren xs (combineHashes h (Expr.hashE x))
end

/-- `ExpressionUtil::IsAggregateExpression` (expression_util.h, lines
43-54). -/
def isAggregateExpression : ExpressionType → Bool
  | .AGGREGATE_COUNT => true
  | .AGGREGATE_SUM => true
  | .AGGREGATE_MIN => true
  | .AGGREGATE_MAX => true
  | .AGGREGATE_AVG => true
  | _ => false

/-- `ExpressionUtil::IsOperatorExpression` (expression_util.h, lines
61-78). -/
def isOperatorExpression : ExpressionType → Bool
  | .OPERATOR_PLUS => true
  | .OPERATOR_MINUS => true
  | .OPERATOR_MULTIPLY => true
  | .OPERATOR_DIVIDE => true
  | .OPERATOR_CONCAT => true
  | .OPERATOR_MOD => true
  | .OPERATOR_CAST => true
  | .OPERATOR_NOT => true
  | .OPERATOR_IS_NULL => true
  | .OPERATOR_EXISTS => true
  | .OPERATOR_UNARY_MINUS => true
  | _ => false

/-- `ExpressionUtil::ReverseComparisonExpressionType` (expression_util.h,
lines 88-101). -/
def reverseComparisonExpressionType : ExpressionType → ExpressionType
  | .COMPARE_GREATER_THAN => .COMPARE_LESS_THAN_OR_EQUAL_TO
  | .COMPARE_GREATER_THAN_OR_EQUAL_TO => .COMPARE_LESS_THAN
  | .COMPARE_LESS_THAN => .COMPARE_GREATER_THAN_OR_EQUAL_TO
  | .COMPARE_LESS_THAN_OR_EQUAL_TO => .COMPARE_GREATER_THAN
  | t => t

/-- `optimizer::ExprMap`. Modelled from the spec:
`optimizer/optimizer_defs.h` is not in the provided sources; an `ExprMap`
maps expressions to column offsets using structural equality for
membership, modelled as an association list looked up with the
expression equality `Expr.beq`. -/
def ExprMap : Type := List (Expr × Nat)

/-- `child_expr_map.count(e) != 0`: membership in an `ExprMap`. -/
def exprMapContains (m : ExprMap) (e : Expr) : Bool :=
  (List.any m (fun p => Expr.beq p.1 e))

/-- `map.find(e)`: the offset stored for the first entry structurally
equal to `e`, if any. -/
def exprMapFind (m : ExprMap) (e : Expr) : Option Nat :=
  (List.find? (fun p => Expr.beq p.1 e) m).map (fun p => p.2)

/-- `ExpressionUtil::EqualExpressions` (expression_util.h, lines
434-451): sizes must match; with `ordered` the loop returns `false` as
soon as `*l[i] == *r[i]` holds and `true` after the loop; without
`ordered` the two vectors are inserted into sets that are compared as
sets (membership by structural equality). -/
def equalExpressions (l r : List Expr) (ordered : Bool) : Bool :=
  if l.length != r.length then false
  else if ordered then
    (l.zip r).all (fun p => !(Expr.beq p.1 p.2))
  else
    (l.all (fun x => r.any (fun y => Expr.beq x y))) &&
      (r.all (fun y => l.any (fun x => Expr.beq x y)))

/-- `new DerivedValueExpression(type, tuple_idx, value_idx)`. Modelled
from the spec: `derived_value_expression.h` is not in the provided
sources; the node is the positional reference (a `VALUE_TUPLE` kind, as
the assertions in `expression_util.h` show), carries the given return
type and the pair (tuple index, value index), has no children, and has
the default annotations of a freshly constructed expression
(empty names, depth -1, no subquery). -/
def mkDerivedValueExpression (ty : TypeId) (tupleIdx valueIdx : Int) : Expr :=
  .node .VALUE_TUPLE "" "" ty (-1) false (.pderived tupleIdx valueIdx) []

/-- The per-child scan of `ConvertExprCVNodes` over `child_expr_maps`
(expression_util.h, lines 158-175), with `tupleIdx` playing `tuple_idx`.
Result `none`: no map matched the child (`did_insert` stays false).
Result `some none`: a map contains the child but `child_expr_map.find(expr)`
missed, so `TERRIER_ASSERT(iter != child_expr_map.end(), ...)` fails.
Result `some (some d)`: the replacement `DerivedValueExpression` built
from the child's return type, the index of the matching map, and the
offset that the matching map stores for the OUTER expression `expr`. -/
def convertChildScan (outer child : Expr) : List ExprMap → Nat → Option (Option Expr)
  | [], _ => none
  | m :: ms, tupleIdx =>
    if (!(child.etype == .COLUMN_VALUE)) && exprMapContains m child then
      match exprMapFind m outer with
      | some valueIdx => some (some (mkDerivedValueExpression child.retTy tupleIdx valueIdx))
      | none => some none
    else
      convertChildScan outer child ms (tupleIdx + 1)

mutual
/-- `ExpressionUtil::ConvertExprCVNodes` (expression_util.h, lines
148-185): walks the children of `expr`; a child that is not a column
value and is contained in some input map is replaced by a
`DerivedValueExpression`, any other child is converted recursively, and
the node is rebuilt with `CopyWithChildren`.  `none` models a fatal
`TERRIER_ASSERT` failure. -/
def convertExprCVNodes : Expr → List ExprMap → Option Expr
  | .node t n a r d s p c, maps =>
    match convertChildrenLoop (.node t n a r d s p c) c maps with
    | none => none
    | some cs => some (Expr.copyWithChildren (.node t n a r d s p c) cs)
/-- The loop over `expr`'s children in `ConvertExprCVNodes`. -/
def convertChildrenLoop (outer : Expr) : List Expr → List ExprMap → Option (List Expr)
  | [], _ => some []
  | ch :: rest, maps =>
    match
      (match convertChildScan outer ch maps 0 with
       | some r => r
       | none => convertExprCVNodes ch maps) with
    | none => none
    | some c2 =>
      match convertChildrenLoop outer rest maps with
      | none => none
      | some cs => some (c2 :: cs)
end

mutual
/-- The shape of an `EvaluateExpression` result tree.  Because the
children vector in `EvaluateExpression` is constructed pre-sized and then
pushed into, result nodes can hold null child slots, so children are
`Option` entries. -/
inductive EExpr where
  | node (etype : ExpressionType) (ename aliasStr : String) (retTy : TypeId)
         (depth : Int) (hasSub : Bool) (pay : EPayload)
         (children : List (Option EExpr)) : EExpr
/-- Payload of a result node; mirrors `Payload` over result trees. -/
inductive EPayload where
  | pnone : EPayload
  | pcolumn (tableName columnName : String) : EPayload
  | pderived (tupleIdx valueIdx : Int) : EPayload
  | pconst (v : Int) : EPayload
  | pcase (clauses : List (EExpr × EExpr)) (deflt : Option EExpr) : EPayload
end

mutual
/-- Embeds an input tree into the result-tree shape (all child slots
filled); this is what copying an untouched subtree into a result yields. -/
def Expr.toE : Expr → EExpr
  | .node t n a r d s p c => .node t n a r d s (Payload.toE p) (Expr.toEList c)
/-- `Expr.toE` over a children list. -/
def Expr.toEList : List Expr → List (Option EExpr)
  | [] => []
  | x :: xs => some (Expr.toE x) :: Expr.toEList xs
/-- `Expr.toE` over a payload. -/
def Payload.toE : Payload → EPayload
  | .pnone => .pnone
  | .pcolumn t c => .pcolumn t c
  | .pderived t v => .pderived t v
  | .pconst v => .pconst v
  | .pcase cls dflt => .pcase (Payload.toEClauses cls) (Payload.toEOpt dflt)
/-- `Expr.toE` over when clauses. -/
def Payload.toEClauses : List (Expr × Expr) → List (EExpr × EExpr)
  | [] => []
  | (a, b) :: xs => (Expr.toE a, Expr.toE b) :: Payload.toEClauses xs
/-- `Expr.toE` over an optional default clause. -/
def Payload.toEOpt : Option Expr → Option EExpr
  | none => none
  | some x => some (Expr.toE x)
end

/-- `CopyWithChildren` as called at the end of `EvaluateExpression`: the
receiver's kind, annotations and payload with the given (possibly
null-holding) children vector. -/
def copyWithChildrenE : Expr → List (Option EExpr) → EExpr
  | .node t n a r d s p _, cs => .node t n a r d s (Payload.toE p) cs

/-- The `DerivedValueExpression` a bound column reference is replaced by
in `EvaluateExpression`, as a result node. -/
def mkDerivedE (ty : TypeId) (tupleIdx valueIdx : Int) : EExpr :=
  .node .VALUE_TUPLE "" "" ty (-1) false (.pderived tupleIdx valueIdx) []

/-- The scan over `expr_maps` in the column-value branch of
`EvaluateExpression` (expression_util.h, lines 343-353): the first map
containing the expression gives (tuple index, stored value index). -/
def evalFindInMaps (e : Expr) : List ExprMap → Nat → Option (Nat × Nat)
  | [], _ => none
  | m :: ms, tupleIdx =>
    match exprMapFind m e with
    | some valueIdx => some (tupleIdx, valueIdx)
    | none => evalFindInMaps e ms (tupleIdx + 1)

mutual
/-- `ExpressionUtil::EvaluateExpression` (expression_util.h, lines
323-424).  The `Bool` of the result is true when the evaluation logged
the `OPTIMIZER_LOG_WARN` about an unbound `ColumnValueExpression`;
`none` models a fatal `TERRIER_ASSERT` failure.  Faithful to the source,
the children vector is constructed as `std::vector<...> children(children_size)`
(a prefix of `children_size` null entries) and the evaluated children are
then pushed onto its back. -/
def evaluateExpression (maps : List ExprMap) : Expr → Option (EExpr × Bool)
  | ex@(.node t _ _ r _ _ p c) =>
    match evalChildren maps c with
    | none => none
    | some (evs, w) =>
      let childVec : List (Option EExpr) := List.replicate c.length none ++ evs
      if t == .COLUMN_VALUE then
        if !(c.length == 0) then none
        else
          match evalFindInMaps ex maps 0 with
          | some (tupleIdx, valueIdx) => some (mkDerivedE r tupleIdx valueIdx, w)
          | none =>
            -- OPTIMIZER_LOG_WARN("EvaluateExpression resulted in an unbound
            -- ColumnValueExpression"); execution continues to the final
            -- CopyWithChildren (the assertion right below the warning is
            -- commented out in the source)
            some (copyWithChildrenE ex childVec, true)
      else if isAggregateExpression t then
        -- the aggregate value-index binding is commented out in the source
        some (copyWithChildrenE ex childVec, w)
      else if t == .FUNCTION then
        -- the function-pointer binding is commented out in the source
        some (copyWithChildrenE ex childVec, w)
      else if t == .OPERATOR_CASE_EXPR then
        if !(c.length == 0) then none
        else
          match p with
          | .pcase clauses dflt =>
            match evalClauses maps clauses with
            | none => none
            | some (cls, w2) =>
              match dflt with
              | none => some (.node .OPERATOR_CASE_EXPR "" "" r (-1) false (.pcase cls none) [], w || w2)
              | some dfe =>
                match evaluateExpression maps dfe with
                | none => none
                | some (de, w3) =>
                  some (.node .OPERATOR_CASE_EXPR "" "" r (-1) false (.pcase cls (some de)) [],
                        w || w2 || w3)
          | _ => none
      else if t == .VALUE_TUPLE then
        -- TERRIER_ASSERT(expr->GetExpressionType() != ExpressionType::VALUE_TUPLE, ...)
        none
      else
        some (copyWithChildrenE ex childVec, w)
/-- The child-evaluation loop of `EvaluateExpression` (the push_back
sequence): evaluates every child left to right, collecting the results
and whether any evaluation warned. -/
def evalChildren (maps : List ExprMap) : List Expr → Option (List (Option EExpr) × Bool)
  | [] => some ([], false)
  | x :: xs =>
    match evaluateExpression maps x with
    | none => none
    | some (e, w1) =>
      match evalChildren maps xs with
      | none => none
      | some (es, w2) => some (some e :: es, w1 || w2)
/-- The when-clause loop of the case branch of `EvaluateExpression`:
evaluates each clause's condition and result. -/
def evalClauses (maps : List ExprMap) : List (Expr × Expr) → Option (List (EExpr × EExpr) × Bool)
  | [] => some ([], false)
  | (a, b) :: xs =>
    match evaluateExpression maps a with
    | none => none
    | some (ea, w1) =>
      match evaluateExpression maps b with
      | none => none
      | some (eb, w2) =>
        match evalClauses maps xs with
        | none => none
        | some (es, w3) => some ((ea, eb) :: es, w1 || w2 || w3)
end

/-- `optimizer::AnnotatedExpression`. Modelled from the spec:
`optimizer/optimizer_defs.h` is not in the provided sources; an annotated
expression wraps an expression (`GetExpr`) together with annotations the
join does not consult. -/
structure AnnotatedExpression where
  expr : Expr

/-- `new ConjunctionExpression(ExpressionType::CONJUNCTION_AND, {l, r})`.
Modelled from the spec: `conjunction_expression.h` is not in the provided
sources; the constructor builds a node of the given conjunction kind over
the two children with the boolean return type and default annotations. -/
def mkConjunctionAnd (l r : Expr) : Expr :=
  .node .CONJUNCTION_AND "" "" .BOOLEAN (-1) false .pnone [l, r]

/-- The loop of `JoinAnnotatedExprs` (expression_util.h, lines 469-474):
at each step the accumulated tree and the copy of the next expression
become the two children of a fresh AND conjunction. -/
def joinLoop (acc : Expr) : List AnnotatedExpression → Expr
  | [] => acc
  | x :: xs => joinLoop (mkConjunctionAnd acc (Expr.copy x.expr)) xs

/-- `ExpressionUtil::JoinAnnotatedExprs` (expression_util.h, lines
462-478): `nullptr` (here `none`) on the empty vector, otherwise the AND
join of the copied expressions. -/
def joinAnnotatedExprs : List AnnotatedExpression → Option Expr
  | [] => none
  | e0 :: rest => some (joinLoop (Expr.copy e0.expr) rest)

/-- The left-associated conjunctive fold as the spec words it: deep
copies of the inputs joined with a binary AND at each step,
left-associated.  This is the specification-side definition that
`joinAnnotatedExprs` is compared against. -/
def leftAssocAndFold (p : AnnotatedExpression) (ps : List AnnotatedExpression) : Expr :=
  ps.foldl (fun acc x => mkConjunctionAnd acc (Expr.copy x.expr)) (Expr.copy p.expr)

/-- `AbstractExpression::SetChild` (abstract_expression.h, lines
281-287) acting on the children vector: when the index is at least the
current size the vector is resized to `index + 1` (new slots hold null
unique pointers, modelled as `none`), and slot `index` then receives a
copy of the given expression. -/
def setChild (cs : List (Option Expr)) (index : Nat) (e : Expr) : List (Option Expr) :=
  let cs2 := if cs.length ≤ index then cs ++ List.replicate (index + 1 - cs.length) none else cs
  cs2.set index (some (Expr.copy e))

/-- `OperatorExpression::DeriveReturnValueType` (operator_expression.h,
lines 27-46): NOT, IS NULL, IS NOT NULL and EXISTS fix the return type
to boolean; every other kind takes the maximum return type among the
children (`std::max_element` with the `<` order on `TypeId`), asserts it
is at most DECIMAL, and sets it.  `none` models the fatal assertion
failure, and also the undefined `std::max_element` dereference on an
empty children list.  `maxStep` is the scan step keeping the larger
return type. -/
def maxStep (acc : TypeId) (x : Expr) : TypeId :=
  if acc.toNat < x.retTy.toNat then x.retTy else acc

/-- `OperatorExpression::DeriveReturnValueType` body; see `maxStep` above
for the `std::max_element` comparator step. -/
def deriveReturnValueType (e : Expr) : Option Expr :=
  if e.etype == .OPERATOR_NOT || e.etype == .OPERATOR_IS_NULL ||
      e.etype == .OPERATOR_IS_NOT_NULL || e.etype == .OPERATOR_EXISTS then
    some (e.setRetTy .BOOLEAN)
  else
    match e.children with
    | [] => none
    | c :: cs =>
      let ty := cs.foldl maxStep c.retTy
      if ty.toNat ≤ TypeId.DECIMAL.toNat then some (e.setRetTy ty) else none

/-- `GroupID`, an opaque integer handle (optimizer_defs.h is not in the
provided sources; modelled from the spec). -/
def GroupID : Type := Int

/-- The physical operator held by a group expression.  Modelled from the
spec: `optimizer/physical_operators.h` is not in the provided sources;
`orderBy` is what `OrderBy::make()` builds, and at least one further
physical operator exists. -/
inductive PhysicalOp where
  | orderBy : PhysicalOp
  | seqScan : PhysicalOp
  deriving DecidableEq, Repr

/-- `optimizer::GroupExpression`: an operator plus the ordered child
group ids, and the id of the group the memo placed it in (`GetGroupID`).
Modelled from the spec: the class header is not in the provided sources;
a freshly constructed expression is in no group yet, recorded as id -1. -/
structure GroupExpression where
  op : PhysicalOp
  groupID : Int
  childGroupIDs : List Int

/-- `new GroupExpression(op, child_groups)`: fresh construction, not yet
memoized into any group. -/
def mkGroupExpression (op : PhysicalOp) (childGroups : List Int) : GroupExpression :=
  GroupExpression.mk op (-1) childGroups

/-- `optimizer::Property`: closed variant set; `PropertySort` carries the
ordered (column, ascending) pairs.  Modelled from the spec:
`optimizer/properties.h` is not in the provided sources. -/
inductive Property where
  | sort (sortColumns : List (Nat × Bool)) : Property

/-- `PropertyEnforcer::Visit(const PropertySort *)`
(property_enforcer.cpp, lines 17-20): one child group, the input
expression's group id, under a fresh OrderBy group expression. -/
def propertyEnforcerVisitSort (inputGexpr : GroupExpression) : GroupExpression :=
  mkGroupExpression .orderBy [inputGexpr.groupID]

/-- `PropertyEnforcer::EnforceProperty` (property_enforcer.cpp, lines
11-15): stores the input, dispatches on the property kind
(`property->Accept(this)`), and returns the constructed output. -/
def enforceProperty (gexpr : GroupExpression) (property : Property) : GroupExpression :=
  match property with
  | .sort _ => propertyEnforcerVisitSort gexpr

/-- A column reference `t.a` of integer type. -/
def colTA : Expr := .node .COLUMN_VALUE "" "" .INTEGER (-1) false (.pcolumn "t" "a") []

/-- A column reference `t.b` of integer type: base-class-equal to `colTA`
but a different node (the payloads differ). -/
def colTB : Expr := .node .COLUMN_VALUE "" "" .INTEGER (-1) false (.pcolumn "t" "b") []

/-- The integer constant 1. -/
def constOne : Expr := .node .VALUE_CONSTANT "" "" .INTEGER (-1) false (.pconst 1) []

/-- A boolean constant, base-class-unequal to `constOne` (kind and return
type differ). -/
def constBool : Expr := .node .VALUE_CONSTANT "" "" .BOOLEAN (-1) false (.pconst 0) []

/-- The aggregate `sum(t.a)`. -/
def sumTA : Expr := .node .AGGREGATE_SUM "" "" .INTEGER (-1) false .pnone [colTA]

/-- The projection expression `1 + sum(t.a)`. -/
def plusOneSum : Expr := .node .OPERATOR_PLUS "" "" .INTEGER (-1) false .pnone [constOne, sumTA]

/-- `NOT(t.a)`: a one-child operator over an (unbound) column reference. -/
def notColTA : Expr := .node .OPERATOR_NOT "" "" .BOOLEAN (-1) false .pnone [colTA]

/-- `-(1)`: a one-child operator whose kind is none of column-reference,
aggregate, function or case. -/
def unaryMinusOne : Expr := .node .OPERATOR_UNARY_MINUS "" "" .INTEGER (-1) false .pnone [constOne]

/-- `NOT(1)` over an integer operand. -/
def notConstOne : Expr := .node .OPERATOR_NOT "" "" .INVALID (-1) false .pnone [constOne]

/-- A decimal constant. -/
def constDec : Expr := .node .VALUE_CONSTANT "" "" .DECIMAL (-1) false (.pconst 2) []

/-- `1 + 2.0`: integer plus decimal. -/
def plusIntDec : Expr := .node .OPERATOR_PLUS "" "" .INVALID (-1) false .pnone [constOne, constDec]

/-- C9: `ReverseComparisonExpressionType` is an involution: applying it
twice returns the input; the four ordering comparisons are swapped in
inverse pairs (GREATER with LESS-OR-EQUAL, GREATER-OR-EQUAL with LESS)
and every other expression type is a fixed point. -/
theorem reverseComparison_involution :
    (∀ t, reverseComparisonExpressionType (reverseComparisonExpressionType t) = t) ∧
    reverseComparisonExpressionType .COMPARE_GREATER_THAN = .COMPARE_LESS_THAN_OR_EQUAL_TO ∧
    reverseComparisonExpressionType .COMPARE_GREATER_THAN_OR_EQUAL_TO = .COMPARE_LESS_THAN ∧
    reverseComparisonExpressionType .COMPARE_LESS_THAN = .COMPARE_GREATER_THAN_OR_EQUAL_TO ∧
    reverseComparisonExpressionType .COMPARE_LESS_THAN_OR_EQUAL_TO = .COMPARE_GREATER_THAN ∧
    (∀ t, t ≠ .COMPARE_GREATER_THAN → t ≠ .COMPARE_GREATER_THAN_OR_EQUAL_TO →
      t ≠ .COMPARE_LESS_THAN → t ≠ .COMPARE_LESS_THAN_OR_EQUAL_TO →
      reverseComparisonExpressionType t = t) := by
  refine ⟨fun t => by cases t <;> rfl, rfl, rfl, rfl, rfl, fun t h1 h2 h3 h4 => ?_⟩
  cases t <;> simp_all [reverseComparisonExpressionType]

/-- C9 witness: the involution at `COMPARE_GREATER_THAN` and the fixed
point at `COMPARE_EQUAL`. -/
theorem reverseComparison_involution_witness :
    reverseComparisonExpressionType (reverseComparisonExpressionType .COMPARE_GREATER_THAN) =
      .COMPARE_GREATER_THAN ∧
    reverseComparisonExpressionType .COMPARE_EQUAL = .COMPARE_EQUAL :=
  ⟨reverseComparison_involution.1 .COMPARE_GREATER_THAN,
   reverseComparison_involution.2.2.2.2.2 .COMPARE_EQUAL
     (by decide) (by decide) (by decide) (by decide)⟩

/-- C1: the code at the failing inputs.  On two equal singleton lists the
ordered comparison returns false, and on two unequal singleton lists it
returns true — the opposite of pairwise equality, because the loop body
reads `if (*l[i] == *r[i]) return false;`. -/
theorem equalExpressions_ordered_failing :
    Expr.beq constOne constOne = true ∧
    equalExpressions [constOne] [constOne] true = false ∧
    Expr.beq constOne constBool = false ∧
    equalExpressions [constOne] [constBool] true = true :=
  ⟨rfl, rfl, rfl, rfl⟩

/-- C2: the code at the failing inputs.  The child `sum(t.a)` of
`1 + sum(t.a)` is stored at offset 5 in the single input map; because the
loop looks the OUTER expression up in the child's matching map, the
conversion aborts on the `Missing ColumnValueExpression` assertion when
the outer expression is absent from that map, and when the outer
expression is additionally present at offset 3 the replacement node
carries offset 3 — the outer expression's offset, not the matched
child's 5. -/
theorem convertExprCVNodes_failing :
    exprMapFind [(sumTA, 5)] sumTA = some 5 ∧
    convertExprCVNodes plusOneSum [[(sumTA, 5)]] = none ∧
    convertExprCVNodes plusOneSum [[(plusOneSum, 3), (sumTA, 5)]] =
      some (.node .OPERATOR_PLUS "" "" .INTEGER (-1) false .pnone
        [constOne, mkDerivedValueExpression .INTEGER 0 3]) :=
  ⟨rfl, rfl, rfl⟩

/-- C3: the code at the failing input.  Evaluating the one-child operator
`-(1)` rebuilds it with TWO child slots — a null slot from the pre-sized
vector followed by the evaluated child — instead of exactly the one
evaluated child. -/
theorem evaluateExpression_children_doubling :
    (Expr.children unaryMinusOne).length = 1 ∧
    evaluateExpression [] unaryMinusOne =
      some (.node .OPERATOR_UNARY_MINUS "" "" .INTEGER (-1) false .pnone
        [none, some (Expr.toE constOne)], false) :=
  ⟨rfl, rfl⟩

/-- C8: the code at the failing input.  Evaluating the unbound column
reference `t.a` is not fatal: the result is the unrewritten copy of the
column node together with the warning flag; but inside `NOT(t.a)` the
copy lands at child slot 1 of 2, after the null slot the pre-sized
children vector contributes, rather than at the column's original
position 0. -/
theorem evaluateExpression_unbound_column :
    evaluateExpression [] colTA = some (Expr.toE colTA, true) ∧
    evaluateExpression [] notColTA =
      some (.node .OPERATOR_NOT "" "" .BOOLEAN (-1) false .pnone
        [none, some (Expr.toE colTA)], true) :=
  ⟨rfl, rfl⟩

/-- C7: `EnforceProperty` on a Sort property returns a freshly
constructed GroupExpression (in no group yet) whose operator is the
order-by physical operator and whose child group ids are exactly the
one-element list holding the input expression's group id. -/
theorem enforceProperty_sort_spec :
    ∀ (g : GroupExpression) (cols : List (Nat × Bool)),
      (enforceProperty g (.sort cols)).op = .orderBy ∧
      (enforceProperty g (.sort cols)).childGroupIDs = [g.groupID] ∧
      (enforceProperty g (.sort cols)).groupID = -1 :=
  fun _ _ => ⟨rfl, rfl, rfl⟩

/-- The loop of `JoinAnnotatedExprs` computes the left fold of the AND
join starting from the accumulated tree. -/
theorem joinLoop_eq_foldl (l : List AnnotatedExpression) :
    ∀ acc, joinLoop acc l =
      l.foldl (fun acc x => mkConjunctionAnd acc (Expr.copy x.expr)) acc := by
  induction l with
  | nil => intro acc; rfl
  | cons x xs ih => intro acc; simp only [joinLoop, List.foldl]; exact ih _

/-- C6: `JoinAnnotatedExprs` of a nonempty sequence is the left-associated
AND fold over deep copies of the inputs (`leftAssocAndFold`, the
specification-side definition), and of the empty sequence it is absence
(`none`), not an empty conjunction. -/
theorem joinAnnotatedExprs_spec :
    joinAnnotatedExprs [] = none ∧
    ∀ (p : AnnotatedExpression) (ps : List AnnotatedExpression),
      joinAnnotatedExprs (p :: ps) = some (leftAssocAndFold p ps) := by
  refine ⟨rfl, fun p ps => ?_⟩
  simp only [joinAnnotatedExprs, leftAssocAndFold]
  rw [joinLoop_eq_foldl]

/-- C4: the base-class hash respects base-class equality: whenever
`operator==` holds of two expression trees (structural equality including
the derived annotations: name, alias, depth, subquery flag, return type),
their `Hash` values agree. -/
theorem hashE_congr : ∀ a b : Expr, Expr.beq a b = true → Expr.hashE a = Expr.hashE b := by
  apply Expr.beq.induct
    (fun a b => Expr.beq a b = true → Expr.hashE a = Expr.hashE b)
    (fun l1 l2 => Expr.beqList l1 l2 = true →
      ∀ h : Nat, Expr.hashChildren l1 h = Expr.hashChildren l2 h)
  · intro t1 n1 a1 r1 d1 s1 p1 c1 t2 n2 a2 r2 d2 s2 p2 c2 ih hbeq
    simp only [Expr.beq, Bool.and_eq_true, beq_iff_eq] at hbeq
    obtain ⟨⟨⟨⟨⟨⟨⟨ht, ha⟩, hn⟩, hd⟩, hs⟩, _hlen⟩, hlist⟩, hr⟩ := hbeq
    subst ht ha hn hd hs hr
    simp only [Expr.hashE]
    rw [ih hlist]
  · intro _hbeq h
    rfl
  · intro x xs y ys ih1 ih2 hbeq h
    simp only [Expr.beqList, Bool.and_eq_true] at hbeq
    obtain ⟨hxy, hxs⟩ := hbeq
    simp only [Expr.hashChildren]
    rw [ih1 hxy, ih2 hxs]
  · intro l1 l2 hnil hcons hbeq
    exfalso
    match l1, l2 with
    | [], [] => exact hnil rfl rfl
    | x :: xs, y :: ys => exact hcons x xs y ys rfl rfl
    | [], _ :: _ => simp [Expr.beqList] at hbeq
    | _ :: _, [] => simp [Expr.beqList] at hbeq

/-- C4 witness: `colTA` and `colTB` are two distinct nodes (their
payloads name different columns) that `operator==` identifies, and their
hashes agree by the congruence. -/
theorem hashE_congr_witness : Expr.hashE colTA = Expr.hashE colTB :=
  hashE_congr colTA colTB rfl

/-- The `std::max_element` scan over the children's return types computes
an upper bound that is attained: the result is the initial value or one
of the scanned return types, dominates the initial value, and dominates
every scanned return type. -/
theorem foldl_maxStep_spec (cs : List Expr) :
    ∀ c : TypeId,
      (cs.foldl maxStep c = c ∨ cs.foldl maxStep c ∈ cs.map Expr.retTy) ∧
      c.toNat ≤ (cs.foldl maxStep c).toNat ∧
      ∀ t ∈ cs.map Expr.retTy, t.toNat ≤ (cs.foldl maxStep c).toNat := by
  induction cs with
  | nil => intro c; exact ⟨Or.inl rfl, Nat.le_refl _, by simp⟩
  | cons x xs ih =>
    intro c
    have hstep : List.foldl maxStep c (x :: xs) = List.foldl maxStep (maxStep c x) xs := rfl
    obtain ⟨hmem, hinit, hall⟩ := ih (maxStep c x)
    have hcx : c.toNat ≤ (maxStep c x).toNat ∧ x.retTy.toNat ≤ (maxStep c x).toNat := by
      unfold maxStep
      by_cases h : c.toNat < x.retTy.toNat
      · rw [if_pos h]; exact ⟨Nat.le_of_lt h, Nat.le_refl _⟩
      · rw [if_neg h]; exact ⟨Nat.le_refl _, Nat.le_of_not_lt h⟩
    refine ⟨?_, ?_, ?_⟩
    · rw [hstep]
      rcases hmem with hmem | hmem
      · rw [hmem]
        unfold maxStep
        by_cases h : c.toNat < x.retTy.toNat
        · rw [if_pos h]; exact Or.inr (by simp)
        · rw [if_neg h]; exact Or.inl rfl
      · exact Or.inr (by simp [hmem])
    · rw [hstep]; exact Nat.le_trans hcx.1 hinit
    · rw [hstep]
      intro t ht
      simp only [List.map_cons, List.mem_cons] at ht
      rcases ht with ht | ht
      · subst ht; exact Nat.le_trans hcx.2 hinit
      · exact hall t (by simpa using ht)

/-- C5: `DeriveReturnValueType` sets the return type to BOOLEAN when the
kind is NOT, IS NULL, IS NOT NULL or EXISTS, regardless of the children;
for every other kind with at least one child it sets the return type to
the maximum of the children's return types under the fixed total order on
value types, and a maximum beyond the DECIMAL ceiling is a fatal
invariant failure (`none`), not a recoverable result. -/
theorem deriveReturnValueType_spec :
    (∀ e : Expr,
      (e.etype = .OPERATOR_NOT ∨ e.etype = .OPERATOR_IS_NULL ∨
       e.etype = .OPERATOR_IS_NOT_NULL ∨ e.etype = .OPERATOR_EXISTS) →
      deriveReturnValueType e = some (e.setRetTy .BOOLEAN)) ∧
    (∀ e : Expr,
      e.etype ≠ .OPERATOR_NOT → e.etype ≠ .OPERATOR_IS_NULL →
      e.etype ≠ .OPERATOR_IS_NOT_NULL → e.etype ≠ .OPERATOR_EXISTS →
      e.children ≠ [] →
      ∃ m : TypeId, m ∈ e.children.map Expr.retTy ∧
        (∀ t ∈ e.children.map Expr.retTy, t.toNat ≤ m.toNat) ∧
        (m.toNat ≤ TypeId.DECIMAL.toNat →
          deriveReturnValueType e = some (e.setRetTy m)) ∧
        (TypeId.DECIMAL.toNat < m.toNat → deriveReturnValueType e = none)) := by
  constructor
  · intro e h
    rcases h with h | h | h | h <;> simp [deriveReturnValueType, h]
  · intro e h1 h2 h3 h4 h5
    have hguard : (e.etype == .OPERATOR_NOT || e.etype == .OPERATOR_IS_NULL ||
        e.etype == .OPERATOR_IS_NOT_NULL || e.etype == .OPERATOR_EXISTS) = false := by
      simp [h1, h2, h3, h4]
    cases hc : e.children with
    | nil => exact absurd hc h5
    | cons c cs =>
      obtain ⟨hmem, _hinit, hall⟩ := foldl_maxStep_spec cs c.retTy
      refine ⟨cs.foldl maxStep c.retTy, ?_, ?_, ?_, ?_⟩
      · simp only [List.map_cons]
        rcases hmem with hmem | hmem
        · rw [hmem]; exact List.mem_cons_self _ _
        · exact List.mem_cons_of_mem _ hmem
      · simp only [List.map_cons]
        intro t ht
        rcases List.mem_cons.mp ht with ht | ht
        · subst ht; exact _hinit
        · exact hall t ht
      · intro hle
        simp only [deriveReturnValueType, hguard, Bool.false_eq_true, if_false]
        rw [hc]
        simp only [if_pos hle]
      · intro hgt
        simp only [deriveReturnValueType, hguard, Bool.false_eq_true, if_false]
        rw [hc]
        simp only [if_neg (Nat.not_le_of_lt hgt)]

/-- C5 witness: `NOT(1)` gets the boolean return type although its child
is an integer, and for `1 + 2.0` the maximum child return type DECIMAL is
within the ceiling, so it is set. -/
theorem deriveReturnValueType_witness :
    deriveReturnValueType notConstOne = some (notConstOne.setRetTy .BOOLEAN) ∧
    (∃ m : TypeId, m ∈ plusIntDec.children.map Expr.retTy ∧
      (∀ t ∈ plusIntDec.children.map Expr.retTy, t.toNat ≤ m.toNat) ∧
      (m.toNat ≤ TypeId.DECIMAL.toNat →
        deriveReturnValueType plusIntDec = some (plusIntDec.setRetTy m)) ∧
      (TypeId.DECIMAL.toNat < m.toNat → deriveReturnValueType plusIntDec = none)) :=
  ⟨deriveReturnValueType_spec.1 notConstOne (Or.inl rfl),
   deriveReturnValueType_spec.2 plusIntDec (by decide) (by decide) (by decide) (by decide)
     (List.cons_ne_nil _ _)⟩

/-- C10: after `SetChild(i, e)` on a children vector, slot `i` holds a
copy of `e`; every other slot that existed before is unchanged; when `i`
is at least the old size the vector is resized to exactly `i + 1` slots
and the slots between the old size and `i` are null; when `i` is within
the old size the length does not change. -/
theorem setChild_spec (cs : List (Option Expr)) (i : Nat) (e : Expr) :
    (setChild cs i e)[i]? = some (some (Expr.copy e)) ∧
    (∀ j, j < cs.length → j ≠ i → (setChild cs i e)[j]? = cs[j]?) ∧
    (cs.length ≤ i →
      (setChild cs i e).length = i + 1 ∧
      ∀ j, cs.length ≤ j → j < i → (setChild cs i e)[j]? = some none) ∧
    (i < cs.length → (setChild cs i e).length = cs.length) := by
  simp only [setChild]
  by_cases hle : cs.length ≤ i
  · simp only [if_pos hle]
    have hl : (cs ++ List.replicate (i + 1 - cs.length) (none : Option Expr)).length = i + 1 := by
      simp only [List.length_append, List.length_replicate]
      omega
    refine ⟨?_, ?_, fun _ => ⟨?_, ?_⟩, fun hlt => absurd hlt (by omega)⟩
    · exact List.getElem?_set_self (by rw [hl]; omega)
    · intro j hj hne
      rw [List.getElem?_set_ne (Ne.symm hne)]
      exact List.getElem?_append_left hj
    · rw [List.length_set]
      exact hl
    · intro j hj1 hj2
      rw [List.getElem?_set_ne (show i ≠ j by omega), List.getElem?_append_right hj1,
        List.getElem?_replicate_of_lt (by omega)]
  · simp only [if_neg hle]
    refine ⟨?_, ?_, fun h => absurd h hle, fun _ => by rw [List.length_set]⟩
    · exact List.getElem?_set_self (by omega)
    · intro j _hj hne
      exact List.getElem?_set_ne (Ne.symm hne)

/-- C10 witness: `SetChild(3, colTA)` on a one-slot vector: slot 3 holds
the copy, slot 0 is untouched, the vector now has exactly 4 slots, and
the gap slots 1 and 2 are null. -/
theorem setChild_witness :
    (setChild [some constOne] 3 colTA)[3]? = some (some (Expr.copy colTA)) ∧
    (setChild [some constOne] 3 colTA)[0]? = some (some constOne) ∧
    (setChild [some constOne] 3 colTA).length = 4 ∧
    (setChild [some constOne] 3 colTA)[1]? = some none ∧
    (setChild [some constOne] 3 colTA)[2]? = some none :=
  ⟨(setChild_spec [some constOne] 3 colTA).1,
   (setChild_spec [some constOne] 3 colTA).2.1 0 (by decide) (by decide),
   ((setChild_spec [some constOne] 3 colTA).2.2.1 (by decide)).1,
   ((setChild_spec [some constOne] 3 colTA).2.2.1 (by decide)).2 1 (by decide) (by decide),
   ((setChild_spec [some constOne] 3 colTA).2.2.1 (by decide)).2 2 (by decide) (by decide)⟩
